import Mathlib

/-!
Verification development for the papua-natural-capital repository.

The definitions below are a shallow embedding of the carbon valuation and
raster preprocessing code (src/models/carbon.py, src/data/preprocess.py).
Python floats are modelled as exact rationals; the special value
float('inf') produced by the guarded divisions is modelled by an explicit
inductive sum `FVal`. Numpy arrays are modelled as lists of rationals and
rasters as lists of pixel values together with their metadata.
-/

namespace PapuaNC

/-- A Python float result that is either a finite number or float('inf'),
as produced by the guarded divisions in carbon.py. -/
inductive FVal where
  | num (q : ℚ)
  | inf
deriving DecidableEq, Repr

/-- carbon_data argument of calculate_carbon_value / compare_scenarios:
either a numpy array (list of values) or a single scalar. -/
inductive CarbonData where
  | array (xs : List ℚ)
  | scalar (q : ℚ)
deriving DecidableEq, Repr

/-- np.mean over a list (NaN on the empty list is out of modelled range). -/
def npMean (xs : List ℚ) : ℚ := xs.sum / xs.length

/-- The mean used by both valuation functions for an array or scalar input
(carbon.py lines 254-258 and 315-323). -/
def meanOf : CarbonData → ℚ
  | .array xs => npMean xs
  | .scalar q => q

/-- Result dictionary of calculate_carbon_value (carbon.py lines 275-284). -/
structure CarbonValueResult where
  mean_carbon_mgha : ℚ
  total_carbon_mg : ℚ
  mean_co2_mgha : ℚ
  total_co2_mg : ℚ
  value_per_ha_usd : ℚ
  total_value_usd : ℚ
  npv_per_ha_usd : FVal
  npv_total_usd : FVal
deriving DecidableEq, Repr

/-- The C-to-CO2 conversion factor 3.67 (carbon.py line 262). -/
def co2_factor : ℚ := 367 / 100

/-- Embedding of calculate_carbon_value (carbon.py lines 231-290). -/
def calculate_carbon_value (carbon_data : CarbonData) (area_ha : ℚ)
    (price_per_ton_co2 : ℚ) (discount_rate : ℚ) : CarbonValueResult :=
  let mean_carbon : ℚ := meanOf carbon_data
  let total_carbon : ℚ :=
    match carbon_data with
    | .array xs => if xs.length > 0 then xs.sum * area_ha / xs.length else 0
    | .scalar q => q * area_ha
  let mean_co2 := mean_carbon * co2_factor
  let total_co2 := total_carbon * co2_factor
  let value_per_ha := mean_co2 * price_per_ton_co2
  let total_value := total_co2 * price_per_ton_co2
  let npv_per_ha : FVal :=
    if discount_rate > 0 then .num (value_per_ha / discount_rate) else .inf
  let npv_total : FVal :=
    if discount_rate > 0 then .num (total_value / discount_rate) else .inf
  { mean_carbon_mgha := mean_carbon
    total_carbon_mg := total_carbon
    mean_co2_mgha := mean_co2
    total_co2_mg := total_co2
    value_per_ha_usd := value_per_ha
    total_value_usd := total_value
    npv_per_ha_usd := npv_per_ha
    npv_total_usd := npv_total }

/-- Result dictionary of compare_scenarios (carbon.py lines 341-351). -/
structure ScenarioComparison where
  baseline_carbon_mgha : ℚ
  scenario_carbon_mgha : ℚ
  carbon_diff_mgha : ℚ
  carbon_diff_total_mg : ℚ
  co2_diff_mgha : ℚ
  co2_diff_total_mg : ℚ
  value_diff_per_ha_usd : ℚ
  value_diff_total_usd : ℚ
  percent_change : FVal
deriving DecidableEq, Repr

/-- Embedding of compare_scenarios (carbon.py lines 292-358). -/
def compare_scenarios (baseline_carbon scenario_carbon : CarbonData)
    (area_ha : ℚ) (price_per_ton_co2 : ℚ) : ScenarioComparison :=
  let baseline_mean := meanOf baseline_carbon
  let scenario_mean := meanOf scenario_carbon
  let carbon_diff := scenario_mean - baseline_mean
  let carbon_diff_total := carbon_diff * area_ha
  let co2_diff := carbon_diff * co2_factor
  let co2_diff_total := carbon_diff_total * co2_factor
  let value_diff_per_ha := co2_diff * price_per_ton_co2
  let value_diff_total := co2_diff_total * price_per_ton_co2
  let percent_change : FVal :=
    if baseline_mean ≠ 0 then .num (carbon_diff / baseline_mean * 100) else .inf
  { baseline_carbon_mgha := baseline_mean
    scenario_carbon_mgha := scenario_mean
    carbon_diff_mgha := carbon_diff
    carbon_diff_total_mg := carbon_diff_total
    co2_diff_mgha := co2_diff
    co2_diff_total_mg := co2_diff_total
    value_diff_per_ha_usd := value_diff_per_ha
    value_diff_total_usd := value_diff_total
    percent_change := percent_change }

/-- C1: for scalar carbon density c, area a, price p and discount rate r > 0,
calculate_carbon_value returns exactly the fixed chain of multiplications by
the CO2 factor 3.67 and the price, followed by one division by the discount
rate for the NPV fields. -/
theorem calculate_carbon_value_scalar_formula (c a p r : ℚ) (hr : r > 0) :
    calculate_carbon_value (.scalar c) a p r =
      { mean_carbon_mgha := c
        total_carbon_mg := c * a
        mean_co2_mgha := c * (367 / 100)
        total_co2_mg := c * a * (367 / 100)
        value_per_ha_usd := c * (367 / 100) * p
        total_value_usd := c * a * (367 / 100) * p
        npv_per_ha_usd := .num (c * (367 / 100) * p / r)
        npv_total_usd := .num (c * a * (367 / 100) * p / r) } := by
  simp only [calculate_carbon_value, meanOf, co2_factor, if_pos hr]

theorem calculate_carbon_value_scalar_formula_witness :
    (1 : ℚ) / 25 > 0 ∧
    calculate_carbon_value (.scalar 100) 2 40 (1 / 25) =
      { mean_carbon_mgha := 100
        total_carbon_mg := 100 * 2
        mean_co2_mgha := 100 * (367 / 100)
        total_co2_mg := 100 * 2 * (367 / 100)
        value_per_ha_usd := 100 * (367 / 100) * 40
        total_value_usd := 100 * 2 * (367 / 100) * 40
        npv_per_ha_usd := .num (100 * (367 / 100) * 40 / (1 / 25))
        npv_total_usd := .num (100 * 2 * (367 / 100) * 40 / (1 / 25)) } :=
  ⟨by norm_num, calculate_carbon_value_scalar_formula 100 2 40 (1 / 25) (by norm_num)⟩

/-- C2: compare_scenarios returns the scenario deltas as the fixed formulas
on the means of the inputs, with percent change 100*(s-b)/b when the
baseline mean b is nonzero. -/
theorem compare_scenarios_formula (baseline scenario : CarbonData) (a p : ℚ)
    (hb : meanOf baseline ≠ 0) :
    compare_scenarios baseline scenario a p =
      (let b := meanOf baseline
       let s := meanOf scenario
       { baseline_carbon_mgha := b
         scenario_carbon_mgha := s
         carbon_diff_mgha := s - b
         carbon_diff_total_mg := (s - b) * a
         co2_diff_mgha := (s - b) * (367 / 100)
         co2_diff_total_mg := (s - b) * a * (367 / 100)
         value_diff_per_ha_usd := (s - b) * (367 / 100) * p
         value_diff_total_usd := (s - b) * a * (367 / 100) * p
         percent_change := .num (100 * (s - b) / b) }) := by
  have hc : ∀ x y : ℚ, x / y * 100 = 100 * x / y := by
    intro x y
    rw [div_mul_eq_mul_div, mul_comm]
  simp only [compare_scenarios, co2_factor, if_pos hb, hc]

theorem compare_scenarios_formula_witness :
    meanOf (.scalar (50 : ℚ)) ≠ 0 ∧
    compare_scenarios (.scalar 50) (.scalar 80) 10 40 =
      { baseline_carbon_mgha := 50
        scenario_carbon_mgha := 80
        carbon_diff_mgha := 80 - 50
        carbon_diff_total_mg := (80 - 50) * 10
        co2_diff_mgha := (80 - 50) * (367 / 100)
        co2_diff_total_mg := (80 - 50) * 10 * (367 / 100)
        value_diff_per_ha_usd := (80 - 50) * (367 / 100) * 40
        value_diff_total_usd := (80 - 50) * 10 * (367 / 100) * 40
        percent_change := .num (100 * ((80 : ℚ) - 50) / 50) } :=
  ⟨by norm_num [meanOf], compare_scenarios_formula (.scalar 50) (.scalar 80) 10 40 (by norm_num [meanOf])⟩

/-- One Python dict insertion, as performed while building
dict(zip(original_value, new_value)): an existing key keeps its position and
takes the new value; a new key is appended. -/
def dictInsert (acc : List (ℤ × ℤ)) (e : ℤ × ℤ) : List (ℤ × ℤ) :=
  if acc.any (fun p => p.1 = e.1) then
    acc.map (fun p => if p.1 = e.1 then (p.1, e.2) else p)
  else acc ++ [e]

/-- The items of reclass_dict = dict(zip(reclass_df.original_value,
reclass_df.new_value)) (preprocess.py line 68): keys in first-insertion
order, each carrying the value of its last occurrence among the rows. -/
def pythonDictItems (rows : List (ℤ × ℤ)) : List (ℤ × ℤ) :=
  rows.foldl dictInsert []

/-- One loop iteration reclass_data[lulc_data == orig_val] = new_val
(preprocess.py line 75): positions are matched against the ORIGINAL band,
values are written into the current band. -/
def reclassStep (original : List ℤ) (reclass_data : List ℤ) (e : ℤ × ℤ) :
    List ℤ :=
  (original.zip reclass_data).map (fun p => if p.1 = e.1 then e.2 else p.2)

/-- The reclassification loop of prepare_lulc_for_invest (preprocess.py
lines 72-77), starting from reclass_data = np.copy(lulc_data). -/
def applyReclassLoop (entries : List (ℤ × ℤ)) (original : List ℤ) : List ℤ :=
  entries.foldl (reclassStep original) original

/-- Embedding of the reclassification performed by prepare_lulc_for_invest
(preprocess.py lines 53-88) on the pixel values of the raster band. -/
def prepare_lulc_for_invest (rows : List (ℤ × ℤ)) (lulc_data : List ℤ) :
    List ℤ :=
  applyReclassLoop (pythonDictItems rows) lulc_data

/-- Lookup of a key among the table rows with Python dict semantics: the
value of the last row carrying the key. -/
def tableLookup (rows : List (ℤ × ℤ)) (o : ℤ) : Option ℤ :=
  ((rows.filter (fun e => e.1 = o)).getLast?).map (fun e => e.2)

/-- The reclassification loop restricted to one pixel of original value o,
with the running band value init. -/
def pixelFold (entries : List (ℤ × ℤ)) (o init : ℤ) : ℤ :=
  entries.foldl (fun cur e => if o = e.1 then e.2 else cur) init

lemma zip_self_map (l : List ℤ) (g : ℤ → ℤ) :
    l.zip (l.map g) = l.map (fun a => (a, g a)) := by
  induction l with
  | nil => rfl
  | cons a t ih => simp [ih]

lemma reclassLoop_map (entries : List (ℤ × ℤ)) (original : List ℤ)
    (g : ℤ → ℤ) :
    entries.foldl (reclassStep original) (original.map g) =
      original.map (fun o => pixelFold entries o (g o)) := by
  induction entries generalizing g with
  | nil => simp [pixelFold]
  | cons e es ih =>
    have hstep : reclassStep original (original.map g) e =
        original.map (fun o => if o = e.1 then e.2 else g o) := by
      rw [reclassStep, zip_self_map, List.map_map]
      rfl
    rw [List.foldl_cons, hstep, ih]
    congr 1

lemma tableLookup_cons (e : ℤ × ℤ) (es : List (ℤ × ℤ)) (o : ℤ) :
    tableLookup (e :: es) o =
      (tableLookup es o).or (if e.1 = o then some e.2 else none) := by
  rw [tableLookup, tableLookup, List.filter_cons]
  by_cases heo : e.1 = o
  · rw [if_pos (by simpa using heo), if_pos heo]
    cases hfe : es.filter (fun x => decide (x.1 = o)) with
    | nil => simp
    | cons y ys =>
      rw [List.getLast?_cons_cons]
      cases hz : (y :: ys).getLast? with
      | none => exact absurd (List.getLast?_eq_none_iff.mp hz) (by simp)
      | some z => simp
  · rw [if_neg (by simpa using heo), if_neg heo]
    cases (es.filter (fun x => decide (x.1 = o))).getLast? <;> simp

lemma pixelFold_eq_lookup (entries : List (ℤ × ℤ)) (o init : ℤ) :
    pixelFold entries o init = (tableLookup entries o).getD init := by
  induction entries generalizing init with
  | nil => rfl
  | cons e es ih =>
    have h1 : pixelFold (e :: es) o init =
        pixelFold es o (if o = e.1 then e.2 else init) := rfl
    rw [h1, ih, tableLookup_cons]
    cases tableLookup es o with
    | some v => simp
    | none =>
      by_cases heo : e.1 = o
      · rw [Option.none_or, if_pos heo.symm, if_pos heo]
        rfl
      · rw [Option.none_or, if_neg (fun h => heo h.symm), if_neg heo]

lemma tableLookup_dictInsert (acc : List (ℤ × ℤ)) (e : ℤ × ℤ) (o : ℤ) :
    tableLookup (dictInsert acc e) o =
      if e.1 = o then some e.2 else tableLookup acc o := by
  rw [dictInsert]
  split
  case isTrue hany =>
    rw [tableLookup, List.filter_map]
    have hpred : ∀ p : ℤ × ℤ,
        ((if p.1 = e.1 then (p.1, e.2) else p).1 = o) = (p.1 = o) := by
      intro p
      by_cases hp : p.1 = e.1 <;> simp [hp]
    simp only [Function.comp_def, hpred]
    by_cases heo : e.1 = o
    · have hmap : (acc.filter (fun p => p.1 = o)).map
          (fun p => if p.1 = e.1 then (p.1, e.2) else p) =
          (acc.filter (fun p => p.1 = o)).map (fun p => (p.1, e.2)) := by
        apply List.map_congr_left
        intro q hq
        have hq1 : q.1 = o := by simpa using (List.mem_filter.mp hq).2
        rw [if_pos (hq1.trans heo.symm)]
      rw [hmap, List.getLast?_map]
      have hne : acc.filter (fun p => p.1 = o) ≠ [] := by
        obtain ⟨p, hp, hpe⟩ := List.any_eq_true.mp hany
        have : p ∈ acc.filter (fun p => p.1 = o) := by
          rw [List.mem_filter]
          exact ⟨hp, by simpa using (of_decide_eq_true hpe).trans heo⟩
        exact List.ne_nil_of_mem this
      cases hfl : (acc.filter (fun p => p.1 = o)).getLast? with
      | none => exact absurd (List.getLast?_eq_none_iff.mp hfl) hne
      | some x => simp [heo]
    · have hmap : (acc.filter (fun p => p.1 = o)).map
          (fun p => if p.1 = e.1 then (p.1, e.2) else p) =
          acc.filter (fun p => p.1 = o) := by
        have : ∀ q ∈ acc.filter (fun p => p.1 = o),
            (if q.1 = e.1 then (q.1, e.2) else q) = q := by
          intro q hq
          have hq1 : q.1 = o := by simpa using (List.mem_filter.mp hq).2
          rw [if_neg (fun h => heo (h.symm.trans hq1))]
        calc (acc.filter (fun p => p.1 = o)).map
              (fun p => if p.1 = e.1 then (p.1, e.2) else p)
            = (acc.filter (fun p => p.1 = o)).map id :=
              List.map_congr_left this
          _ = acc.filter (fun p => p.1 = o) := List.map_id _
      rw [hmap, if_neg heo, tableLookup]
  case isFalse hany =>
    rw [tableLookup, List.filter_append]
    by_cases heo : e.1 = o
    · have h1 : List.filter (fun p => decide (p.1 = o)) [e] = [e] := by
        simp [heo]
      rw [h1, List.getLast?_append_of_ne_nil _ (by simp)]
      simp [heo]
    · have h1 : List.filter (fun p => decide (p.1 = o)) [e] = [] := by
        simp [heo]
      rw [h1, List.append_nil, if_neg heo, tableLookup]

lemma tableLookup_dictFold (rows : List (ℤ × ℤ)) (acc : List (ℤ × ℤ))
    (o : ℤ) :
    tableLookup (rows.foldl dictInsert acc) o =
      (tableLookup rows o).or (tableLookup acc o) := by
  induction rows generalizing acc with
  | nil => simp [tableLookup]
  | cons e es ih =>
    rw [List.foldl_cons, ih, tableLookup_dictInsert, tableLookup_cons,
      Option.or_assoc]
    congr 1
    by_cases heo : e.1 = o <;> cases h : tableLookup acc o <;> simp [heo]

lemma tableLookup_pythonDictItems (rows : List (ℤ × ℤ)) (o : ℤ) :
    tableLookup (pythonDictItems rows) o = tableLookup rows o := by
  rw [pythonDictItems, tableLookup_dictFold]
  simp [tableLookup]

lemma applyReclassLoop_eq_map (entries : List (ℤ × ℤ)) (original : List ℤ) :
    applyReclassLoop entries original =
      original.map (fun o => (tableLookup entries o).getD o) := by
  have h := reclassLoop_map entries original id
  rw [List.map_id] at h
  rw [applyReclassLoop, h]
  congr 1
  funext o
  rw [pixelFold_eq_lookup]
  rfl

lemma filter_key_length_le_one (rows : List (ℤ × ℤ)) (o : ℤ)
    (hkeys : (rows.map Prod.fst).Nodup) :
    (rows.filter (fun e => e.1 = o)).length ≤ 1 := by
  have hsub : List.Sublist ((rows.filter (fun e => e.1 = o)).map Prod.fst)
      (rows.map Prod.fst) := (List.filter_sublist rows).map Prod.fst
  have hnd : ((rows.filter (fun e => e.1 = o)).map Prod.fst).Nodup :=
    hsub.nodup hkeys
  cases hfil : rows.filter (fun e => e.1 = o) with
  | nil => simp
  | cons x t =>
    cases t with
    | nil => simp
    | cons y t2 =>
      exfalso
      have hx : x.1 = o := by
        have hmem : x ∈ rows.filter (fun e => e.1 = o) := by
          rw [hfil]; exact List.mem_cons_self x (y :: t2)
        simpa using (List.mem_filter.mp hmem).2
      have hy : y.1 = o := by
        have hmem : y ∈ rows.filter (fun e => e.1 = o) := by
          rw [hfil]; exact List.mem_cons_of_mem _ (List.mem_cons_self y t2)
        simpa using (List.mem_filter.mp hmem).2
      rw [hfil, List.map_cons, List.map_cons, List.nodup_cons] at hnd
      apply hnd.1
      rw [hx, ← hy]
      exact List.mem_cons_self y.1 (t2.map Prod.fst)

lemma tableLookup_perm (rows rows2 : List (ℤ × ℤ)) (o : ℤ)
    (hperm : rows.Perm rows2) (hkeys : (rows.map Prod.fst).Nodup) :
    tableLookup rows2 o = tableLookup rows o := by
  have hf : (rows.filter (fun e => e.1 = o)).Perm
      (rows2.filter (fun e => e.1 = o)) := hperm.filter _
  have hlen := filter_key_length_le_one rows o hkeys
  have heq : rows.filter (fun e => e.1 = o) =
      rows2.filter (fun e => e.1 = o) := by
    cases hfil : rows.filter (fun e => e.1 = o) with
    | nil =>
      rw [hfil] at hf
      exact (List.perm_nil.mp hf.symm).symm
    | cons x t =>
      cases t with
      | nil =>
        rw [hfil] at hf
        exact (List.perm_singleton.mp hf.symm).symm
      | cons y t2 =>
        rw [hfil] at hlen
        simp at hlen
  rw [tableLookup, tableLookup, heq]

/-- C3: prepare_lulc_for_invest replaces every pixel whose original value is
an original_value key by the corresponding new_value (Python dict semantics:
the last row of a repeated key wins) and keeps every other pixel, matching
only against the original data so no pixel is rewritten twice; and for a
table with distinct original_value keys the result does not depend on the
iteration order over the rows. -/
theorem prepare_lulc_reclass (rows rows2 : List (ℤ × ℤ)) (lulc_data : List ℤ)
    (hperm : rows.Perm rows2) (hkeys : (rows.map Prod.fst).Nodup) :
    prepare_lulc_for_invest rows lulc_data =
      lulc_data.map (fun o => (tableLookup rows o).getD o) ∧
    prepare_lulc_for_invest rows2 lulc_data =
      prepare_lulc_for_invest rows lulc_data := by
  have hmain : ∀ r : List (ℤ × ℤ), prepare_lulc_for_invest r lulc_data =
      lulc_data.map (fun o => (tableLookup r o).getD o) := by
    intro r
    rw [prepare_lulc_for_invest, applyReclassLoop_eq_map]
    congr 1
    funext o
    rw [tableLookup_pythonDictItems]
  refine ⟨hmain rows, ?_⟩
  rw [hmain rows, hmain rows2]
  congr 1
  funext o
  rw [tableLookup_perm rows rows2 o hperm hkeys]

theorem prepare_lulc_reclass_witness :
    prepare_lulc_for_invest [(1, 10), (2, 20)] [0, 1, 2, 3] =
      ([0, 1, 2, 3] : List ℤ).map
        (fun o => (tableLookup [(1, 10), (2, 20)] o).getD o) ∧
    prepare_lulc_for_invest [(2, 20), (1, 10)] [0, 1, 2, 3] =
      prepare_lulc_for_invest [(1, 10), (2, 20)] [0, 1, 2, 3] :=
  prepare_lulc_reclass [(1, 10), (2, 20)] [(2, 20), (1, 10)] [0, 1, 2, 3]
    (List.Perm.swap (2, 20) (1, 10) []) (by decide)

/-- Raster metadata carried through rasterio: shape, affine transform,
coordinate reference system, and the nodata value (0 standing for an unset
nodata, which rasterio fills with 0), modelled abstractly. -/
structure RasterMeta where
  height : ℕ
  width : ℕ
  transform : ℤ × ℤ × ℤ × ℤ × ℤ × ℤ
  crs : ℕ
  nodata : ℤ
deriving DecidableEq, Repr

/-- A single-band raster: metadata plus the flat list of pixel values. -/
structure Raster where
  meta : RasterMeta
  data : List ℤ
deriving DecidableEq, Repr

/-- One iteration scenario_data[area_mask] = new_value (preprocess.py line
293) for an already computed boolean mask. -/
def applyChange (band : List ℤ) (m : List Bool) (v : ℤ) : List ℤ :=
  (band.zip m).map (fun p => if p.2 then v else p.1)

/-- Embedding of area_mask = mask(src, geoms, crop=False)[0].astype(bool)
(preprocess.py lines 289-290): rasterio.mask.mask returns the SOURCE data at
pixels inside the shapes and the nodata fill value outside them, and
astype(bool) is true exactly at nonzero values. inside is the pure
geometric indicator of the change-area shapes. -/
def rasterioMaskBool (band : List ℤ) (fill : ℤ) (inside : List Bool) :
    List Bool :=
  (band.zip inside).map (fun p => decide ((if p.2 then p.1 else fill) ≠ 0))

/-- Embedding of create_scenario_lulc (preprocess.py lines 247-306): a copy
of the base band updated by each (change area, new value) pair in turn —
each area's boolean mask being derived from the base data via
rasterioMaskBool — and the base metadata written unchanged. -/
def create_scenario_lulc (base : Raster) (change_areas : List (List Bool))
    (new_values : List ℤ) : Raster :=
  { meta := base.meta
    data := (change_areas.zip new_values).foldl
      (fun acc p =>
        applyChange acc (rasterioMaskBool base.data base.meta.nodata p.1) p.2)
      base.data }

lemma foldl_if_eq_lookup {α : Type} (P : α → Bool) (l : List α) (f : α → ℤ)
    (init : ℤ) :
    l.foldl (fun cur e => if P e then f e else cur) init =
      (((l.filter P).getLast?).map f).getD init := by
  induction l generalizing init with
  | nil => rfl
  | cons e es ih =>
    rw [List.foldl_cons, ih, List.filter_cons]
    cases hP : P e with
    | true =>
      rw [if_pos rfl, if_pos rfl]
      cases hfe : es.filter P with
      | nil => simp
      | cons y ys =>
        rw [List.getLast?_cons_cons]
        cases hz : (y :: ys).getLast? with
        | none => exact absurd (List.getLast?_eq_none_iff.mp hz) (by simp)
        | some z => simp
    | false =>
      rw [if_neg (by simp), if_neg (by simp)]

lemma applyChange_length (band : List ℤ) (m : List Bool) (v : ℤ)
    (hlen : m.length = band.length) :
    (applyChange band m v).length = band.length := by
  rw [applyChange, List.length_map, List.length_zip, hlen, min_self]

lemma applyChange_getD (band : List ℤ) (m : List Bool) (v : ℤ) (i : ℕ)
    (hlen : m.length = band.length) (hi : i < band.length) :
    (applyChange band m v).getD i 0 =
      if m.getD i false then v else band.getD i 0 := by
  induction band generalizing m i with
  | nil => exact absurd hi (by simp)
  | cons a t ih =>
    cases m with
    | nil => exact absurd hlen (by simp)
    | cons b mt =>
      cases i with
      | zero => rfl
      | succ j =>
        have h1 : (applyChange (a :: t) (b :: mt) v).getD (j + 1) 0 =
            (applyChange t mt v).getD j 0 := rfl
        rw [h1, ih mt j (by simpa using hlen) (by simpa using hi)]
        rfl

lemma scenarioFold_length (pairs : List (List Bool × ℤ)) (band : List ℤ)
    (hm : ∀ p ∈ pairs, p.1.length = band.length) :
    (pairs.foldl (fun acc p => applyChange acc p.1 p.2) band).length =
      band.length := by
  induction pairs generalizing band with
  | nil => rfl
  | cons p ps ih =>
    rw [List.foldl_cons]
    have h1 : (applyChange band p.1 p.2).length = band.length :=
      applyChange_length band p.1 p.2 (hm p (List.mem_cons_self p ps))
    rw [ih (applyChange band p.1 p.2)
      (fun q hq => (hm q (List.mem_cons_of_mem p hq)).trans h1.symm), h1]

lemma scenarioFold_getD (pairs : List (List Bool × ℤ)) (band : List ℤ)
    (i : ℕ) (hm : ∀ p ∈ pairs, p.1.length = band.length)
    (hi : i < band.length) :
    (pairs.foldl (fun acc p => applyChange acc p.1 p.2) band).getD i 0 =
      pairs.foldl (fun cur p => if p.1.getD i false then p.2 else cur)
        (band.getD i 0) := by
  induction pairs generalizing band with
  | nil => rfl
  | cons p ps ih =>
    rw [List.foldl_cons, List.foldl_cons]
    have h1 : (applyChange band p.1 p.2).length = band.length :=
      applyChange_length band p.1 p.2 (hm p (List.mem_cons_self p ps))
    rw [ih (applyChange band p.1 p.2)
      (fun q hq => (hm q (List.mem_cons_of_mem p hq)).trans h1.symm)
      (h1.symm ▸ hi)]
    rw [applyChange_getD band p.1 p.2 i (hm p (List.mem_cons_self p ps)) hi]

lemma rasterioMaskBool_length (band : List ℤ) (fill : ℤ)
    (inside : List Bool) (hlen : inside.length = band.length) :
    (rasterioMaskBool band fill inside).length = band.length := by
  rw [rasterioMaskBool, List.length_map, List.length_zip, hlen, min_self]

lemma rasterioMaskBool_getD (band : List ℤ) (fill : ℤ) (inside : List Bool)
    (i : ℕ) (hlen : inside.length = band.length) (hi : i < band.length) :
    (rasterioMaskBool band fill inside).getD i false =
      decide ((if inside.getD i false then band.getD i 0 else fill) ≠ 0) := by
  induction band generalizing inside i with
  | nil => exact absurd hi (by simp)
  | cons a t ih =>
    cases inside with
    | nil => exact absurd hlen (by simp)
    | cons b bt =>
      cases i with
      | zero => rfl
      | succ j =>
        have h1 : (rasterioMaskBool (a :: t) fill (b :: bt)).getD (j + 1)
            false = (rasterioMaskBool t fill bt).getD j false := rfl
        rw [h1, ih bt j (by simpa using hlen) (by simpa using hi)]
        rfl

/-- C4 refuted as stated: in the base raster [0, 7] (nodata 0), pixel 0 lies
inside the single change area, yet the scenario raster keeps the base value
0 there instead of taking the new value 5 — the mask computed by
mask(src, geoms)[0].astype(bool) is false wherever the source data is 0, so
the claimed "every pixel inside the area gets the new value" fails. -/
theorem create_scenario_lulc_claim_counterexample :
    (([[true, true]] : List (List Bool)).getD 0 []).getD 0 false = true ∧
    (create_scenario_lulc
      { meta := { height := 1, width := 2, transform := (1, 0, 0, 0, 1, 0),
                  crs := 4326, nodata := 0 },
        data := [0, 7] }
      [[true, true]] [5]).data.getD 0 0 = 0 ∧
    (create_scenario_lulc
      { meta := { height := 1, width := 2, transform := (1, 0, 0, 0, 1, 0),
                  crs := 4326, nodata := 0 },
        data := [0, 7] }
      [[true, true]] [5]).data.getD 0 0 ≠ 5 := by decide

/-- C4 (amended): create_scenario_lulc keeps the base raster metadata and
pixel grid, but each area's boolean mask is derived from the base data: a
pixel counts as covered by an area exactly when the value that
mask(src, geoms) leaves there — the base pixel value inside the area's
geometry, the nodata fill outside it — is nonzero. Every pixel covered in
this sense equals the value of the LAST covering area, and every other
pixel keeps its base value; in particular a pixel inside an area whose base
value is 0 is never rewritten, and with a nonzero nodata fill every outside
pixel is rewritten. -/
theorem create_scenario_lulc_spec (base : Raster)
    (change_areas : List (List Bool)) (new_values : List ℤ) (i : ℕ)
    (hlen : change_areas.length = new_values.length)
    (hm : ∀ a ∈ change_areas, a.length = base.data.length)
    (hi : i < base.data.length) :
    (create_scenario_lulc base change_areas new_values).meta = base.meta ∧
    (create_scenario_lulc base change_areas new_values).data.length =
      base.data.length ∧
    (create_scenario_lulc base change_areas new_values).data.getD i 0 =
      ((((change_areas.zip new_values).filter
          (fun p => decide ((if p.1.getD i false then base.data.getD i 0
                             else base.meta.nodata) ≠ 0))).getLast?).map
        Prod.snd).getD (base.data.getD i 0) := by
  have hpairs : ∀ p ∈ change_areas.zip new_values,
      p.1.length = base.data.length := by
    intro p hp
    exact hm p.1 (List.of_mem_zip hp).1
  have hfold : (create_scenario_lulc base change_areas new_values).data =
      ((change_areas.zip new_values).map
        (fun p =>
          (rasterioMaskBool base.data base.meta.nodata p.1, p.2))).foldl
        (fun acc q => applyChange acc q.1 q.2) base.data := by
    rw [create_scenario_lulc, List.foldl_map]
  have hmapped : ∀ q ∈ (change_areas.zip new_values).map
      (fun p => (rasterioMaskBool base.data base.meta.nodata p.1, p.2)),
      q.1.length = base.data.length := by
    intro q hq
    obtain ⟨p, hp, rfl⟩ := List.mem_map.mp hq
    exact rasterioMaskBool_length base.data base.meta.nodata p.1 (hpairs p hp)
  refine ⟨rfl, ?_, ?_⟩
  · rw [hfold]
    exact scenarioFold_length _ base.data hmapped
  · rw [hfold, scenarioFold_getD _ base.data i hmapped hi]
    refine (foldl_if_eq_lookup (fun q : List Bool × ℤ => q.1.getD i false)
      _ Prod.snd (base.data.getD i 0)).trans ?_
    rw [List.filter_map, List.getLast?_map, Option.map_map]
    have hsnd : (Prod.snd ∘ fun p : List Bool × ℤ =>
        (rasterioMaskBool base.data base.meta.nodata p.1, p.2)) =
        (Prod.snd : List Bool × ℤ → ℤ) := rfl
    rw [hsnd]
    have hfil : (change_areas.zip new_values).filter
        ((fun q : List Bool × ℤ => q.1.getD i false) ∘ fun p =>
          (rasterioMaskBool base.data base.meta.nodata p.1, p.2)) =
        (change_areas.zip new_values).filter
          (fun p => decide ((if p.1.getD i false then base.data.getD i 0
                             else base.meta.nodata) ≠ 0)) := by
      apply List.filter_congr
      intro p hp
      exact rasterioMaskBool_getD base.data base.meta.nodata p.1 i
        (hpairs p hp) hi
    rw [hfil]

theorem create_scenario_lulc_spec_witness :
    ([[false, true, true, false], [false, false, true, false]] :
        List (List Bool)).length = ([5, 9] : List ℤ).length ∧
    (2 : ℕ) < ([1, 1, 1, 1] : List ℤ).length ∧
    ((create_scenario_lulc
        { meta := { height := 2, width := 2,
                    transform := (1, 0, 0, 0, 1, 0), crs := 4326,
                    nodata := 0 },
          data := [1, 1, 1, 1] }
        [[false, true, true, false], [false, false, true, false]]
        [5, 9]).meta =
      ({ height := 2, width := 2,
         transform := (1, 0, 0, 0, 1, 0), crs := 4326,
         nodata := 0 } : RasterMeta) ∧
    (create_scenario_lulc
        { meta := { height := 2, width := 2,
                    transform := (1, 0, 0, 0, 1, 0), crs := 4326,
                    nodata := 0 },
          data := [1, 1, 1, 1] }
        [[false, true, true, false], [false, false, true, false]]
        [5, 9]).data.length = ([1, 1, 1, 1] : List ℤ).length ∧
    (create_scenario_lulc
        { meta := { height := 2, width := 2,
                    transform := (1, 0, 0, 0, 1, 0), crs := 4326,
                    nodata := 0 },
          data := [1, 1, 1, 1] }
        [[false, true, true, false], [false, false, true, false]]
        [5, 9]).data.getD 2 0 =
      ((((([[false, true, true, false], [false, false, true, false]] :
            List (List Bool)).zip ([5, 9] : List ℤ)).filter
          (fun p => decide ((if p.1.getD 2 false
                             then ([1, 1, 1, 1] : List ℤ).getD 2 0
                             else (0 : ℤ)) ≠ 0))).getLast?).map
        Prod.snd).getD (([1, 1, 1, 1] : List ℤ).getD 2 0)) :=
  ⟨rfl, by norm_num,
   create_scenario_lulc_spec
     { meta := { height := 2, width := 2,
                 transform := (1, 0, 0, 0, 1, 0), crs := 4326, nodata := 0 },
       data := [1, 1, 1, 1] }
     [[false, true, true, false], [false, false, true, false]]
     [5, 9] 2 rfl (by decide) (by norm_num)⟩

/-- Python exception kinds relevant to carbon.py: FileNotFoundError raised
by the explicit existence checks, ValueError raised for missing CSV columns,
and library failures (rasterio / pandas / natcap) on files that do exist,
which are never FileNotFoundError. -/
inductive PyError where
  | fileNotFound
  | valueError
  | libraryError
deriving DecidableEq, Repr

/-- Abstract environment seen by prepare_carbon_inputs: whether each input
path exists, whether each library read succeeds, and the data the reads
return when they do. -/
structure CarbonEnv where
  lulc_exists : Bool
  csv_exists : Bool
  raster_read_ok : Bool
  lulc_values : List ℤ
  csv_read_ok : Bool
  csv_columns : List String
  csv_lucodes : List ℤ
deriving DecidableEq, Repr

/-- The required carbon pools CSV columns (carbon.py line 72). -/
def required_cols : List String :=
  ["lucode", "c_above", "c_below", "c_soil", "c_dead"]

/-- The model args dictionary returned on success (carbon.py lines 88-92). -/
structure CarbonArgs where
  lulc_cur_path : String
  carbon_pools_path : String
  workspace_dir : String
deriving DecidableEq, Repr

/-- Embedding of prepare_carbon_inputs (carbon.py lines 26-94). On success
it also reports the LULC classes that lack carbon data, which the code only
logs as a warning. -/
def prepare_carbon_inputs (env : CarbonEnv)
    (lulc_path carbon_pools_csv output_dir : String) :
    Except PyError (CarbonArgs × List ℤ) :=
  if ¬ env.lulc_exists then .error .fileNotFound
  else if ¬ env.csv_exists then .error .fileNotFound
  else if ¬ env.raster_read_ok then .error .libraryError
  else if ¬ env.csv_read_ok then .error .libraryError
  else
    let missing_cols :=
      required_cols.filter (fun c => ¬ env.csv_columns.contains c)
    if missing_cols ≠ [] then .error .valueError
    else
      let missing_values := env.lulc_values.filter
        (fun v => ¬ env.csv_lucodes.contains v ∧ v ≠ 0)
      .ok ({ lulc_cur_path := lulc_path
             carbon_pools_path := carbon_pools_csv
             workspace_dir := output_dir }, missing_values)

/-- Embedding of the try/except block of run_carbon_model (carbon.py lines
112-118): the InVEST call either succeeds or its exception is logged and
re-raised unchanged. -/
def run_carbon_model_step (execute_result : Except PyError ℕ) :
    Except PyError ℕ :=
  match execute_result with
  | .error e => .error e
  | .ok r => .ok r

/-- np.min over a nonempty list (empty is out of modelled range). -/
def listMin : List ℚ → ℚ
  | [] => 0
  | h :: t => t.foldl min h

/-- np.max over a nonempty list (empty is out of modelled range). -/
def listMax : List ℚ → ℚ
  | [] => 0
  | h :: t => t.foldl max h

/-- np.median: middle element of the sorted list, or the average of the two
middle elements for an even length. -/
def npMedian (xs : List ℚ) : ℚ :=
  let s := xs.mergeSort (fun a b => a ≤ b)
  let n := xs.length
  if n % 2 = 1 then s.getD (n / 2) 0
  else (s.getD (n / 2 - 1) 0 + s.getD (n / 2) 0) / 2

/-- Summary dictionary built by summarize_carbon_results (carbon.py lines
155-169) and extract_carbon_for_region (lines 208-220); area_ha is present
only when the branch that computes it runs. -/
structure CarbonSummary where
  mean_carbon : ℚ
  median_carbon : ℚ
  min_carbon : ℚ
  max_carbon : ℚ
  total_carbon : ℚ
  pixel_count : ℕ
  pixel_size : ℚ
  area_ha : Option ℚ
deriving DecidableEq, Repr

/-- Embedding of summarize_carbon_results (carbon.py lines 128-175); the
raster band is the list of pixel values, res0 and res1 its resolutions. -/
def summarize_carbon_results (carbon_data : List ℚ) (res0 res1 : ℚ) :
    CarbonSummary :=
  let valid_data := carbon_data.filter (fun v => v > 0)
  { mean_carbon := npMean valid_data
    median_carbon := npMedian valid_data
    min_carbon := listMin valid_data
    max_carbon := listMax valid_data
    total_carbon := valid_data.sum
    pixel_count := valid_data.length
    pixel_size := res0 * res1
    area_ha :=
      if res0 = res1 then some (valid_data.length * (res0 * res1) / 10000)
      else none }

/-- Embedding of extract_carbon_for_region (carbon.py lines 177-229); the
masked band is the list of pixel values inside the region geometry. -/
def extract_carbon_for_region (masked_data : List ℚ) (res0 res1 : ℚ) :
    List ℚ × CarbonSummary :=
  let valid_data := masked_data.filter (fun v => v > 0)
  (valid_data,
   { mean_carbon := npMean valid_data
     median_carbon := npMedian valid_data
     min_carbon := listMin valid_data
     max_carbon := listMax valid_data
     total_carbon := valid_data.sum
     pixel_count := valid_data.length
     pixel_size := res0 * res1
     area_ha := some (valid_data.length * (res0 * res1) / 10000) })

/-- C8: the carbon summaries are computed over exactly the strictly positive
pixels — appending any pixels with value ≤ 0 changes no statistic of either
function — pixel_count counts the positive pixels, area_ha equals
pixel_count * res0 * res1 / 10000, and summarize_carbon_results includes
area_ha only when the pixels are square. -/
theorem carbon_summary_positive_pixels (data extra : List ℚ) (r0 r1 : ℚ)
    (hextra : ∀ v ∈ extra, v ≤ 0) :
    summarize_carbon_results (data ++ extra) r0 r1 =
      summarize_carbon_results data r0 r1 ∧
    extract_carbon_for_region (data ++ extra) r0 r1 =
      extract_carbon_for_region data r0 r1 ∧
    (summarize_carbon_results data r0 r1).pixel_count =
      (data.filter (fun v => v > 0)).length ∧
    (r0 = r1 → (summarize_carbon_results data r0 r1).area_ha =
      some (((data.filter (fun v => v > 0)).length : ℚ) * (r0 * r1) / 10000)) ∧
    (r0 ≠ r1 → (summarize_carbon_results data r0 r1).area_ha = none) ∧
    (extract_carbon_for_region data r0 r1).2.area_ha =
      some (((data.filter (fun v => v > 0)).length : ℚ) * (r0 * r1) / 10000) := by
  have hfe : extra.filter (fun v => v > 0) = [] := by
    rw [List.filter_eq_nil_iff]
    intro v hv
    simpa using not_lt.mpr (hextra v hv)
  have happ : (data ++ extra).filter (fun v => v > 0) =
      data.filter (fun v => v > 0) := by
    rw [List.filter_append, hfe, List.append_nil]
  refine ⟨?_, ?_, rfl, fun hsq => ?_, fun hnsq => ?_, rfl⟩
  · simp only [summarize_carbon_results, happ]
  · simp only [extract_carbon_for_region, happ]
  · simp only [summarize_carbon_results, if_pos hsq]
  · simp only [summarize_carbon_results, if_neg hnsq]

theorem carbon_summary_positive_pixels_witness :
    (∀ v ∈ [(-2 : ℚ), 0], v ≤ 0) ∧
    ((100 : ℚ) = 100) ∧ ((100 : ℚ) ≠ 200) ∧
    (summarize_carbon_results ([5, 3, 8] ++ [-2, 0]) 100 100 =
      summarize_carbon_results [5, 3, 8] 100 100 ∧
     (summarize_carbon_results [5, 3, 8] 100 100).area_ha =
      some ((([(5 : ℚ), 3, 8].filter (fun v => v > 0)).length : ℚ) *
        (100 * 100) / 10000)) ∧
    (summarize_carbon_results [5, 3, 8] 100 200).area_ha = none :=
  ⟨by norm_num, rfl, by norm_num,
   ⟨(carbon_summary_positive_pixels [5, 3, 8] [-2, 0] 100 100 (by norm_num)).1,
    (carbon_summary_positive_pixels [5, 3, 8] [-2, 0] 100 100
      (by norm_num)).2.2.2.1 rfl⟩,
   (carbon_summary_positive_pixels [5, 3, 8] [-2, 0] 100 200
      (by norm_num)).2.2.2.2.1 (by norm_num)⟩

/-- C6: run_carbon_model propagates exceptions unchanged;
prepare_carbon_inputs raises FileNotFoundError exactly when the LULC path
or the carbon pools CSV path does not exist, raises ValueError exactly when
the CSV lacks a required column (files existing and reads succeeding), and
returns normally — reporting LULC classes without carbon data only as a
logged warning — otherwise. -/
theorem prepare_carbon_inputs_error_model (env : CarbonEnv)
    (lp cp od : String) (x : Except PyError ℕ) :
    run_carbon_model_step x = x ∧
    (prepare_carbon_inputs env lp cp od = .error .fileNotFound ↔
      (env.lulc_exists = false ∨ env.csv_exists = false)) ∧
    (env.lulc_exists = true → env.csv_exists = true →
      env.raster_read_ok = true → env.csv_read_ok = true →
      (prepare_carbon_inputs env lp cp od = .error .valueError ↔
        required_cols.filter (fun c => ¬ env.csv_columns.contains c) ≠ [])) ∧
    (env.lulc_exists = true → env.csv_exists = true →
      env.raster_read_ok = true → env.csv_read_ok = true →
      required_cols.filter (fun c => ¬ env.csv_columns.contains c) = [] →
      prepare_carbon_inputs env lp cp od =
        .ok ({ lulc_cur_path := lp
               carbon_pools_path := cp
               workspace_dir := od },
          env.lulc_values.filter
            (fun v => ¬ env.csv_lucodes.contains v ∧ v ≠ 0))) := by
  refine ⟨by cases x <;> rfl, ?_, ?_, ?_⟩
  · cases hl : env.lulc_exists <;> cases hc : env.csv_exists <;>
      cases hr : env.raster_read_ok <;> cases hcsv : env.csv_read_ok <;>
      simp [prepare_carbon_inputs, hl, hc, hr, hcsv] <;>
      split <;> simp
  · intro hl hc hr hcsv
    simp [prepare_carbon_inputs, hl, hc, hr, hcsv]
  · intro hl hc hr hcsv hm
    simp [prepare_carbon_inputs, hl, hc, hr, hcsv]
    simpa using hm

theorem prepare_carbon_inputs_error_model_witness :
    run_carbon_model_step (.error .libraryError) =
      (.error .libraryError : Except PyError ℕ) ∧
    prepare_carbon_inputs
      { lulc_exists := false, csv_exists := true, raster_read_ok := true,
        lulc_values := [], csv_read_ok := true,
        csv_columns := required_cols, csv_lucodes := [] }
      "lulc.tif" "pools.csv" "out" = .error .fileNotFound ∧
    prepare_carbon_inputs
      { lulc_exists := true, csv_exists := true, raster_read_ok := true,
        lulc_values := [1], csv_read_ok := true,
        csv_columns := ["lucode", "c_above"], csv_lucodes := [1] }
      "lulc.tif" "pools.csv" "out" = .error .valueError ∧
    prepare_carbon_inputs
      { lulc_exists := true, csv_exists := true, raster_read_ok := true,
        lulc_values := [0, 1, 2, 3], csv_read_ok := true,
        csv_columns := required_cols, csv_lucodes := [1, 2] }
      "lulc.tif" "pools.csv" "out" =
      .ok ({ lulc_cur_path := "lulc.tif"
             carbon_pools_path := "pools.csv"
             workspace_dir := "out" },
        ([0, 1, 2, 3] : List ℤ).filter
          (fun v => ¬ ([1, 2] : List ℤ).contains v ∧ v ≠ 0)) :=
  ⟨(prepare_carbon_inputs_error_model
      { lulc_exists := false, csv_exists := true, raster_read_ok := true,
        lulc_values := [], csv_read_ok := true,
        csv_columns := required_cols, csv_lucodes := [] }
      "lulc.tif" "pools.csv" "out" (.error .libraryError)).1,
   (prepare_carbon_inputs_error_model
      { lulc_exists := false, csv_exists := true, raster_read_ok := true,
        lulc_values := [], csv_read_ok := true,
        csv_columns := required_cols, csv_lucodes := [] }
      "lulc.tif" "pools.csv" "out" (.error .libraryError)).2.1.mpr
      (Or.inl rfl),
   (prepare_carbon_inputs_error_model
      { lulc_exists := true, csv_exists := true, raster_read_ok := true,
        lulc_values := [1], csv_read_ok := true,
        csv_columns := ["lucode", "c_above"], csv_lucodes := [1] }
      "lulc.tif" "pools.csv" "out" (.error .libraryError)).2.2.1
      rfl rfl rfl rfl |>.mpr (by decide),
   (prepare_carbon_inputs_error_model
      { lulc_exists := true, csv_exists := true, raster_read_ok := true,
        lulc_values := [0, 1, 2, 3], csv_read_ok := true,
        csv_columns := required_cols, csv_lucodes := [1, 2] }
      "lulc.tif" "pools.csv" "out" (.error .libraryError)).2.2.2
      rfl rfl rfl rfl (by decide)⟩

/-- C5: the NPV divisions of calculate_carbon_value are guarded by
discount_rate > 0 — for every discount_rate ≤ 0 (including negative rates)
both NPV fields are float('inf') — and the percent-change division of
compare_scenarios is guarded by a nonzero baseline mean, returning
float('inf') when the baseline mean is 0. -/
theorem valuation_division_guards (cd : CarbonData) (a p r : ℚ)
    (b s : CarbonData) :
    (r ≤ 0 →
      (calculate_carbon_value cd a p r).npv_per_ha_usd = .inf ∧
      (calculate_carbon_value cd a p r).npv_total_usd = .inf) ∧
    (r > 0 →
      (calculate_carbon_value cd a p r).npv_per_ha_usd =
        .num (meanOf cd * co2_factor * p / r)) ∧
    (meanOf b = 0 → (compare_scenarios b s a p).percent_change = .inf) := by
  refine ⟨fun hr => ⟨?_, ?_⟩, fun hr => ?_, fun hb => ?_⟩
  · simp [calculate_carbon_value, not_lt.mpr hr]
  · simp [calculate_carbon_value, not_lt.mpr hr]
  · simp [calculate_carbon_value, hr]
  · simp [compare_scenarios, hb]

theorem valuation_division_guards_witness :
    ((calculate_carbon_value (.scalar 5) 2 40 0).npv_per_ha_usd = .inf ∧
     (calculate_carbon_value (.scalar 5) 2 40 0).npv_total_usd = .inf) ∧
    ((calculate_carbon_value (.scalar 5) 2 40 (-(1 / 2))).npv_per_ha_usd = .inf ∧
     (calculate_carbon_value (.scalar 5) 2 40 (-(1 / 2))).npv_total_usd = .inf) ∧
    (compare_scenarios (.scalar 0) (.scalar 3) 2 40).percent_change = .inf :=
  ⟨(valuation_division_guards (.scalar 5) 2 40 0 (.scalar 0) (.scalar 3)).1 (by norm_num),
   (valuation_division_guards (.scalar 5) 2 40 (-(1 / 2)) (.scalar 0) (.scalar 3)).1 (by norm_num),
   (valuation_division_guards (.scalar 5) 2 40 0 (.scalar 0) (.scalar 3)).2.2 (by simp [meanOf])⟩

/-- C7: the array and scalar paths of calculate_carbon_value agree — for a
non-empty array xs the result equals the result for the scalar mean(xs),
since sum(xs)*a/len(xs) = mean(xs)*a; for an empty array the array branch
sets total_carbon to 0. -/
theorem calculate_carbon_value_array_scalar_agree (xs : List ℚ) (a p r : ℚ)
    (h : xs ≠ []) :
    calculate_carbon_value (.array xs) a p r =
      calculate_carbon_value (.scalar (npMean xs)) a p r ∧
    (calculate_carbon_value (.array []) a p r).total_carbon_mg = 0 := by
  have hpos : 0 < xs.length := List.length_pos.mpr h
  have htot : xs.sum * a / (xs.length : ℚ) = npMean xs * a := by
    rw [npMean, div_mul_eq_mul_div]
  constructor
  · simp [calculate_carbon_value, meanOf, hpos, htot]
  · simp [calculate_carbon_value]

theorem calculate_carbon_value_array_scalar_agree_witness :
    ([(10 : ℚ), 20, 30] ≠ []) ∧
    (calculate_carbon_value (.array [10, 20, 30]) 5 40 (1 / 25) =
      calculate_carbon_value (.scalar (npMean [10, 20, 30])) 5 40 (1 / 25) ∧
    (calculate_carbon_value (.array []) 5 40 (1 / 25)).total_carbon_mg = 0) :=
  ⟨by simp, calculate_carbon_value_array_scalar_agree [10, 20, 30] 5 40 (1 / 25) (by simp)⟩

/-- C9: the valuation and scenario-comparison computations are deterministic:
on equal inputs, calculate_carbon_value and compare_scenarios return equal
result dictionaries — the results depend only on the explicit arguments. -/
theorem valuation_deterministic (cd1 cd2 b1 b2 s1 s2 : CarbonData)
    (a1 a2 p1 p2 r1 r2 : ℚ)
    (hcd : cd1 = cd2) (ha : a1 = a2) (hp : p1 = p2) (hr : r1 = r2)
    (hb : b1 = b2) (hs : s1 = s2) :
    calculate_carbon_value cd1 a1 p1 r1 = calculate_carbon_value cd2 a2 p2 r2 ∧
    compare_scenarios b1 s1 a1 p1 = compare_scenarios b2 s2 a2 p2 := by
  subst hcd ha hp hr hb hs
  exact ⟨rfl, rfl⟩

theorem valuation_deterministic_witness :
    calculate_carbon_value (.scalar 7) 3 40 (1 / 25) =
      calculate_carbon_value (.scalar 7) 3 40 (1 / 25) ∧
    compare_scenarios (.scalar 1) (.scalar 2) 3 40 =
      compare_scenarios (.scalar 1) (.scalar 2) 3 40 :=
  valuation_deterministic (.scalar 7) (.scalar 7) (.scalar 1) (.scalar 1)
    (.scalar 2) (.scalar 2) 3 3 40 40 (1 / 25) (1 / 25) rfl rfl rfl rfl rfl rfl

end PapuaNC
